import Mathlib

/-!
# Verification of the OmniScript registry-search subsystem

Shallow embedding of `src/tools/registry_search.py`: the on-disk cache store
(`_get_cached` / `_set_cached`), the registry adapters (`search_docker_hub`,
`search_quay`) and the tag-ranking part of `get_best_tag`.

Modelling conventions:
* JSON values are `JValue`.  A Python value returned by `json.load` is a
  `JValue`; the Python value `None` is `JValue.null` (so a "miss" returned by
  `_get_cached` and a stored JSON `null` payload are the same value, exactly
  as in Python).  JSON numbers are modelled as integers; the claims under
  study involve no floating-point payloads.
* The file system is a list of (file name, content) pairs; a write shadows
  earlier entries.  A file whose bytes do not parse as JSON is
  `FileContent.invalid` (on such a file `json.load` raises
  `json.JSONDecodeError`).
* Exceptions are explicit: a fallible operation returns `Except PyExc α`.
* Time is an integer number of seconds.  `datetime.isoformat` /
  `datetime.fromisoformat` are standard-library behaviour, modelled by an
  injective encoding `pyIsoformat` with computable partial inverse
  `pyFromIso?`:  `pyFromIso?` inverts `pyIsoformat`, additionally accepts the
  literal default string `"1970-01-01"` (the epoch, used by `_get_cached`
  when the `cached_at` field is missing), and rejects every other string —
  on a rejected string `datetime.fromisoformat` raises `ValueError`, on a
  non-string argument it raises `TypeError`.
* The HTTP fetcher `_http_get` is an external boundary: its result is passed
  to the search functions as a parameter `http : Option JValue`
  (`none` = transport/decode failure).  Each search function also returns the
  number of network requests it issued (0 or 1).
* Character classes `\d` and `\w` of the `re` module, `str.lower`, and
  whitespace stripping in `int()` are modelled over the ASCII range.
-/

/-- A JSON value, as produced by `json.load`.  `null` is Python `None`. -/
inductive JValue where
  | null : JValue
  | bool (b : Bool) : JValue
  | num (n : Int) : JValue
  | str (s : String) : JValue
  | arr (elems : List JValue) : JValue
  | obj (fields : List (String × JValue)) : JValue

/-- Python exceptions that the modelled code can raise. -/
inductive PyExc where
  | valueError : PyExc
  | typeError : PyExc
  | attributeError : PyExc
  | keyError : PyExc
deriving DecidableEq

/-- Python truthiness (`bool(v)`) of a JSON-decoded value. -/
def JValue.truthy : JValue → Bool
  | .null => false
  | .bool b => b
  | .num n => n != 0
  | .str s => !s.toList.isEmpty
  | .arr l => !l.isEmpty
  | .obj l => !l.isEmpty

/-- Content of one on-disk cache file: either bytes that fail to parse as
JSON (`json.load` raises `JSONDecodeError`) or a parsed JSON value.  Objects
produced by `json.load` have pairwise-distinct keys. -/
inductive FileContent where
  | invalid : FileContent
  | json (v : JValue) : FileContent

/-- The cache directory: file name (the cache key) ↦ content.  A write
prepends and shadows; `diskLookup` finds the most recent write. -/
abbrev Disk := List (String × FileContent)

/-- Read a file (`none` = the file does not exist). -/
def diskLookup (d : Disk) (k : String) : Option FileContent :=
  List.lookup k d

/-- `open(file, 'w')` followed by a full write: replaces any prior content. -/
def diskWrite (d : Disk) (k : String) (c : FileContent) : Disk :=
  (k, c) :: d

/-! ## Decimal codec for the timestamp model

`pyIsoformat` must be injective and invertible by `pyFromIso?`; we build the
decimal digit string of a natural number and prove the round trip. -/

/-- The character of a decimal digit. -/
def digChar (d : Nat) : Char := Char.ofNat (48 + d)

/-- The value of a decimal digit character. -/
def digVal (c : Char) : Nat := c.toNat - 48

/-- Little-endian decimal digits of `n`; `fuel ≥ n` guarantees completion. -/
def natDigitsAux : Nat → Nat → List Char
  | 0, _ => []
  | _ + 1, 0 => []
  | fuel + 1, n => digChar (n % 10) :: natDigitsAux fuel (n / 10)

/-- Decimal string of a natural number (model of Python `str(n)` for
`n ≥ 0`). -/
def natToDecimal (n : Nat) : String :=
  if n = 0 then "0" else String.mk (natDigitsAux n n).reverse

/-- Value of a little-endian digit list. -/
def valLE : List Char → Nat
  | [] => 0
  | c :: cs => digVal c + 10 * valLE cs

/-- Parse a nonempty all-digit string (big-endian); `none` otherwise. -/
def decodeNat? (cs : List Char) : Option Nat :=
  if cs.isEmpty then none
  else if cs.all Char.isDigit then
    some (cs.foldl (fun a c => a * 10 + digVal c) 0)
  else none

/-- Model of `datetime.isoformat()` at integer time `t`: an injective
canonical stamp (prefix `D` for `t ≥ 0`, `N` for `t < 0`, then decimal
seconds). -/
def pyIsoformat (t : Int) : String :=
  if t < 0 then "N" ++ natToDecimal t.natAbs else "D" ++ natToDecimal t.natAbs

/-- Model of `datetime.fromisoformat`: inverts `pyIsoformat`, accepts the
default literal `"1970-01-01"` (epoch 0), rejects everything else
(`ValueError` in Python). -/
def pyFromIso? (s : String) : Option Int :=
  match s.toList with
  | ['1', '9', '7', '0', '-', '0', '1', '-', '0', '1'] => some 0
  | 'D' :: ds => (decodeNat? ds).map (fun n => (n : Int))
  | 'N' :: ds => (decodeNat? ds).map (fun n => -(n : Int))
  | _ => none

/-! ## The cache store -/

/-- `CACHE_TTL = 3600` (seconds). -/
def CACHE_TTL : Int := 3600

/-- `RegistrySearcher.__init__(use_cache=True)`. -/
structure RegistrySearcher where
  use_cache : Bool

/-- `RegistrySearcher._get_cached(key)` reading the cache directory `disk`
at current time `now`.  Mirrors the source line by line: the `try` block
catches only `json.JSONDecodeError` and `KeyError`; a `ValueError` from
`datetime.fromisoformat` (malformed stamp), a `TypeError` (non-string
stamp) or an `AttributeError` (`data.get` on a non-dict JSON document)
escapes. -/
def RegistrySearcher.getCached (self : RegistrySearcher) (disk : Disk)
    (now : Int) (key : String) : Except PyExc JValue :=
  if !self.use_cache then .ok .null
  else
    match diskLookup disk key with
    | none => .ok .null
    | some .invalid => .ok .null
    | some (.json data) =>
      match data with
      | .obj fields =>
        match (List.lookup "cached_at" fields).getD (.str "1970-01-01") with
        | .str ts =>
          match pyFromIso? ts with
          | none => .error .valueError
          | some cachedAt =>
            if now - cachedAt < CACHE_TTL then
              .ok ((List.lookup "data" fields).getD .null)
            else .ok .null
        | _ => .error .typeError
      | _ => .error .attributeError

/-- `RegistrySearcher._set_cached(key, data)`: writes the entry
unconditionally.  Note: the source does not consult `self.use_cache` here. -/
def RegistrySearcher.setCached (self : RegistrySearcher) (disk : Disk)
    (now : Int) (key : String) (data : JValue) : Disk :=
  diskWrite disk key
    (.json (.obj [("cached_at", .str (pyIsoformat now)), ("data", data)]))

/-! ## The tag ranker — `get_best_tag`, lines after the `get_tags` fetch

`get_best_tag(image)` computes `tags = self.get_tags(image)` and then ranks
the fetched list; `bestTagFromTags` embeds that ranking, taking the fetched
tag list as its argument. -/

/-- The fixed exclusion set of `get_best_tag` (`exclude = {...}`). -/
def exclude : List String :=
  ["latest", "edge", "nightly", "dev", "develop", "master",
   "main", "unstable", "beta", "alpha", "rc", "test", "testing"]

/-- Python `str.lower()` over the ASCII range (character-wise lowering). -/
def pyLower (s : String) : String := String.mk (s.toList.map Char.toLower)

/-- A word character of the `re` module (`\w`, ASCII range). -/
def isWordChar (c : Char) : Bool := c.isAlphanum || c == '_'

/-- Consume `\d+` (one or more digits); `none` if no digit starts here.
Maximal munch is safe: nothing after `\d+` in the pattern can start with a
digit. -/
def eat1Digits : List Char → Option (List Char)
  | c :: cs => if c.isDigit then some (cs.dropWhile Char.isDigit) else none
  | [] => none

/-- Consume `(\.\d+)?`.  If the next character is `'.'` the digits are
mandatory (no later part of the pattern can consume a `'.'`). -/
def eatDotGroup : List Char → Option (List Char)
  | '.' :: cs => eat1Digits cs
  | cs => some cs

/-- Consume `(-[\w]+)?`.  Maximal munch over `\w` is safe: only `$` follows,
and `'\n'` is not a word character. -/
def eatDashSuffix : List Char → Option (List Char)
  | '-' :: cs =>
    match cs with
    | c :: cs' => if isWordChar c then some (cs'.dropWhile isWordChar) else none
    | [] => none
  | cs => some cs

/-- The `$` anchor of `re.match`: end of string, or just before one final
`'\n'`. -/
def atLineEnd : List Char → Bool
  | [] => true
  | ['\n'] => true
  | _ => false

/-- `re.match` against `semver_pattern = r'^v?\d+(\.\d+)?(\.\d+)?(-[\w]+)?$'`
(`true` iff a match exists).  The pattern is deterministic, so a chain of
single-pass eaters is exact. -/
def semverMatch (s : String) : Bool :=
  let cs := match s.toList with
    | 'v' :: rest => rest
    | cs => cs
  match eat1Digits cs with
  | none => false
  | some cs =>
    match eatDotGroup cs with
    | none => false
    | some cs =>
      match eatDotGroup cs with
      | none => false
      | some cs =>
        match eatDashSuffix cs with
        | none => false
        | some cs => atLineEnd cs

/-- The survivors of both filters, in original order:
`[t for t in tags if t.lower() not in exclude and semver_pattern.match(t)]`. -/
def valid_tags (tags : List String) : List String :=
  tags.filter (fun t => !(exclude.contains (pyLower t)) && semverMatch t)

/-- `re.split(r'[-.]', t)`: split at every `'-'` or `'.'`, keeping empty
segments. -/
def splitDashDot : List Char → List (List Char)
  | [] => [[]]
  | c :: cs =>
    if c == '-' || c == '.' then [] :: splitDashDot cs
    else
      match splitDashDot cs with
      | [] => [[c]]
      | p :: ps => (c :: p) :: ps

/-- Digits of `int()` after the first: single underscores may separate
digits (`int("1_2") = 12`); a trailing or doubled underscore fails. -/
def digitsCore (acc : Nat) : List Char → Option Nat
  | [] => some acc
  | '_' :: rest =>
    match rest with
    | c :: cs => if c.isDigit then digitsCore (acc * 10 + digVal c) cs else none
    | [] => none
  | c :: cs => if c.isDigit then digitsCore (acc * 10 + digVal c) cs else none

/-- One or more digits with optional single inner underscores. -/
def digitsTop : List Char → Option Nat
  | c :: cs => if c.isDigit then digitsCore (digVal c) cs else none
  | [] => none

/-- Python `int(s)` on a string: strip whitespace, optional sign, then
digits with optional single inner underscores; `none` models `ValueError`.
(ASCII digits and whitespace.) -/
def pyInt? (cs : List Char) : Option Int :=
  let t := ((cs.dropWhile Char.isWhitespace).reverse.dropWhile
      Char.isWhitespace).reverse
  match t with
  | '+' :: rest => (digitsTop rest).map (fun n => (n : Int))
  | '-' :: rest => (digitsTop rest).map (fun n => -(n : Int))
  | rest => (digitsTop rest).map (fun n => (n : Int))

/-- `version_key(tag)`: strip leading `'v'`s, split on `[-.]`, parse the
first four components as `int` (0 on `ValueError`), right-pad with 0 to
exactly four components. -/
def version_key (tag : String) : List Int :=
  let t := tag.toList.dropWhile (· == 'v')
  let parts := splitDashDot t
  let nums := (parts.take 4).map (fun p => (pyInt? p).getD 0)
  nums ++ List.replicate (4 - nums.length) 0

/-- Lexicographic `<` on Python lists of ints. -/
def keyLt : List Int → List Int → Bool
  | [], [] => false
  | [], _ :: _ => true
  | _ :: _, [] => false
  | a :: as, b :: bs => if a < b then true else if b < a then false else keyLt as bs

/-- `x ≥ y` in the version-key order. -/
def keyGe (x y : List Int) : Bool := !keyLt x y

/-- The sort order of `valid_tags.sort(key=version_key, reverse=True)`:
`a` may come before `b` iff `version_key a ≥ version_key b`. -/
def tagOrder (a b : String) : Prop :=
  keyGe (version_key a) (version_key b) = true

instance : DecidableRel tagOrder :=
  fun a b => inferInstanceAs (Decidable (keyGe (version_key a) (version_key b) = true))

/-- The ranking part of `get_best_tag`, applied to the fetched tag list.
Python's `list.sort` is a stable sort; with a total preorder comparator any
stable sort produces the same list, and `List.insertionSort` is stable, so
it is an exact model of `valid_tags.sort(key=version_key, reverse=True)`
followed by `valid_tags[0]`. -/
def bestTagFromTags (tags : List String) : String :=
  if tags.isEmpty then "latest"
  else
    let valid := valid_tags tags
    if valid.isEmpty then tags.headD "latest"
    else (List.insertionSort tagOrder valid).headD "latest"

/-! ## Registry adapters

Python's dataclass fields carry whatever values the constructor received;
the fields are therefore `JValue`-typed, with the dataclass defaults. -/

/-- `ImageResult` (dataclass), field order as declared. -/
structure ImageResult where
  name : JValue
  registry : JValue
  description : JValue
  stars : JValue := JValue.num 0
  pulls : JValue := JValue.num 0
  official : JValue := JValue.bool false
  latest_tag : JValue := JValue.str "latest"

/-- `ImageResult.to_dict` (`dataclasses.asdict`, declaration order). -/
def ImageResult.to_dict (r : ImageResult) : JValue :=
  .obj [("name", r.name), ("registry", r.registry),
        ("description", r.description), ("stars", r.stars),
        ("pulls", r.pulls), ("official", r.official),
        ("latest_tag", r.latest_tag)]

/-- The dataclass field names. -/
def imageResultKeys : List String :=
  ["name", "registry", "description", "stars", "pulls", "official", "latest_tag"]

/-- `ImageResult(**r)`: every key of `r` must be a field name and the three
default-less fields must be present, else Python raises `TypeError`
(modelled as `none`).  Keys of a `json.load` object are distinct. -/
def ImageResult.ofKwargs? (j : JValue) : Option ImageResult :=
  match j with
  | .obj fs =>
    if fs.all (fun kv => imageResultKeys.contains kv.1) then
      match List.lookup "name" fs, List.lookup "registry" fs,
            List.lookup "description" fs with
      | some n, some rg, some d =>
        some { name := n, registry := rg, description := d,
               stars := (List.lookup "stars" fs).getD (.num 0),
               pulls := (List.lookup "pulls" fs).getD (.num 0),
               official := (List.lookup "official" fs).getD (.bool false),
               latest_tag := (List.lookup "latest_tag" fs).getD (.str "latest") }
      | _, _, _ => none
    else none
  | _ => none

/-- `d.get(k, default)`; `AttributeError` when `d` is not a dict. -/
def pyDictGet (v : JValue) (k : String) (dflt : JValue) : Except PyExc JValue :=
  match v with
  | .obj fs => .ok ((List.lookup k fs).getD dflt)
  | _ => .error .attributeError

/-- Python `a or b`. -/
def pyOr (a b : JValue) : JValue := if a.truthy then a else b

/-- `v[:n]`: strings and lists slice; other values raise `TypeError`. -/
def pySliceTake (v : JValue) (n : Nat) : Except PyExc JValue :=
  match v with
  | .str s => .ok (.str (String.mk (s.toList.take n)))
  | .arr xs => .ok (.arr (xs.take n))
  | _ => .error .typeError

/-- Substring test on character lists (Python `needle in hay` for `str`). -/
def strContainsSub (hay needle : List Char) : Bool :=
  (List.range (hay.length + 1)).any
    (fun i => (hay.drop i).take needle.length == needle)

/-- Python `k not in v` for a string `k`: key test on dicts, element test on
lists (a string equals only an equal string), substring test on strings;
`TypeError` on numbers, booleans and `None`. -/
def pyNotIn (k : String) (v : JValue) : Except PyExc Bool :=
  match v with
  | .obj fs => .ok (!(fs.any (fun kv => kv.1 == k)))
  | .arr xs => .ok (!(xs.any (fun x =>
      match x with
      | .str s => s == k
      | _ => false)))
  | .str s => .ok (!strContainsSub s.toList k.toList)
  | _ => .error .typeError

/-- `v[k]` for a string key: only dicts support it. -/
def pyGetItem (v : JValue) (k : String) : Except PyExc JValue :=
  match v with
  | .obj fs =>
    match List.lookup k fs with
    | some x => .ok x
    | none => .error .keyError
  | _ => .error .typeError

/-- `for x in v`: lists yield elements, strings their characters,
dicts their keys; other values raise `TypeError`. -/
def pyIter (v : JValue) : Except PyExc (List JValue) :=
  match v with
  | .arr xs => .ok xs
  | .str s => .ok (s.toList.map (fun c => .str (String.mk [c])))
  | .obj fs => .ok (fs.map (fun kv => .str kv.1))
  | _ => .error .typeError

/-- `str(v)` as used by the f-string building the Quay name.  Exact on
scalars; on lists/dicts Python prints their `repr`, abbreviated here (such
values only arise from degenerate backend records and no claim depends on
the printed text). -/
def pyStrOf : JValue → String
  | .null => "None"
  | .bool true => "True"
  | .bool false => "False"
  | .num n => toString n
  | .str s => s
  | .arr _ => "[...]"
  | .obj _ => "(dict)"

/-- One Docker Hub record → `ImageResult` (the body of the mapping loop in
`search_docker_hub`), evaluation order as in the source. -/
def dockerMapItem (item : JValue) : Except PyExc ImageResult := do
  let name ← pyDictGet item "repo_name" (.str "")
  let sd ← pyDictGet item "short_description" .null
  let desc ← pySliceTake (pyOr sd (.str "")) 100
  let stars ← pyDictGet item "star_count" (.num 0)
  let pulls ← pyDictGet item "pull_count" (.num 0)
  let official ← pyDictGet item "is_official" (.bool false)
  return { name := name, registry := .str "docker.io", description := desc,
           stars := stars, pulls := pulls, official := official }

/-- The mapping loop of `search_docker_hub` (left to right, first exception
wins). -/
def dockerMapItems : List JValue → Except PyExc (List ImageResult)
  | [] => .ok []
  | x :: xs =>
    match dockerMapItem x with
    | .error e => .error e
    | .ok r =>
      match dockerMapItems xs with
      | .error e => .error e
      | .ok rs => .ok (r :: rs)

/-- `search_docker_hub` after a successful fetch of `data`:
`if not data or 'results' not in data: return []` (`.ok none`, nothing
cached), else map every record of `data['results']` (`.ok (some rs)`,
cached by the caller).  No client-side truncation: `limit` is only sent to
the server as `page_size`. -/
def dockerFetchMap (data : JValue) : Except PyExc (Option (List ImageResult)) :=
  if !data.truthy then .ok none
  else
    match pyNotIn "results" data with
    | .error e => .error e
    | .ok true => .ok none
    | .ok false =>
      match pyGetItem data "results" with
      | .error e => .error e
      | .ok rv =>
        match pyIter rv with
        | .error e => .error e
        | .ok items =>
          match dockerMapItems items with
          | .error e => .error e
          | .ok rs => .ok (some rs)

/-- `[ImageResult(**r) for r in cached]` (cache-hit reconstruction). -/
def kwargsList : List JValue → Except PyExc (List ImageResult)
  | [] => .ok []
  | x :: xs =>
    match ImageResult.ofKwargs? x with
    | none => .error .typeError
    | some r =>
      match kwargsList xs with
      | .error e => .error e
      | .ok rs => .ok (r :: rs)

/-- Cache-hit path: iterate the cached value and rebuild the results. -/
def kwargsResults (cached : JValue) : Except PyExc (List ImageResult) :=
  match pyIter cached with
  | .error e => .error e
  | .ok items => kwargsList items

/-- `cache_key = f"dockerhub_{term}_{limit}"`. -/
def dockerKey (term : String) (limit : Nat) : String :=
  "dockerhub_" ++ term ++ "_" ++ toString limit

/-- `RegistrySearcher.search_docker_hub(term, limit)`.  `http` is the value
`_http_get` would return for the search URL (`none` = fetch failure); the
third component counts the network requests issued (0 or 1). -/
def RegistrySearcher.search_docker_hub (self : RegistrySearcher) (disk : Disk)
    (now : Int) (http : Option JValue) (term : String) (limit : Nat) :
    Except PyExc (List ImageResult) × Disk × Nat :=
  let cache_key := dockerKey term limit
  match self.getCached disk now cache_key with
  | .error e => (.error e, disk, 0)
  | .ok cached =>
    if cached.truthy then (kwargsResults cached, disk, 0)
    else
      match http with
      | none => (.ok [], disk, 1)
      | some data =>
        match dockerFetchMap data with
        | .error e => (.error e, disk, 1)
        | .ok none => (.ok [], disk, 1)
        | .ok (some results) =>
          (.ok results,
           self.setCached disk now cache_key
             (.arr (results.map ImageResult.to_dict)), 1)

/-- One Quay record → `ImageResult` (the body of the mapping loop in
`search_quay`). -/
def quayMapItem (item : JValue) : Except PyExc ImageResult := do
  let ns ← pyDictGet item "namespace" (.obj [])
  let nsName ← pyDictGet ns "name" (.str "")
  let nm ← pyDictGet item "name" (.str "")
  let d ← pyDictGet item "description" .null
  let desc ← pySliceTake (pyOr d (.str "")) 100
  return { name := .str ("quay.io/" ++ pyStrOf nsName ++ "/" ++ pyStrOf nm),
           registry := .str "quay.io", description := desc,
           stars := .num 0, pulls := .num 0 }

/-- The mapping loop of `search_quay`. -/
def quayMapItems : List JValue → Except PyExc (List ImageResult)
  | [] => .ok []
  | x :: xs =>
    match quayMapItem x with
    | .error e => .error e
    | .ok r =>
      match quayMapItems xs with
      | .error e => .error e
      | .ok rs => .ok (r :: rs)

/-- `search_quay` after a successful fetch: same early-exit test, then maps
`data['results'][:limit]` — the truncation is client-side, before the
mapping loop. -/
def quayFetchMap (data : JValue) (limit : Nat) :
    Except PyExc (Option (List ImageResult)) :=
  if !data.truthy then .ok none
  else
    match pyNotIn "results" data with
    | .error e => .error e
    | .ok true => .ok none
    | .ok false =>
      match pyGetItem data "results" with
      | .error e => .error e
      | .ok rv =>
        match pySliceTake rv limit with
        | .error e => .error e
        | .ok sliced =>
          match pyIter sliced with
          | .error e => .error e
          | .ok items =>
            match quayMapItems items with
            | .error e => .error e
            | .ok rs => .ok (some rs)

/-- `cache_key = f"quay_{term}_{limit}"`. -/
def quayKey (term : String) (limit : Nat) : String :=
  "quay_" ++ term ++ "_" ++ toString limit

/-- `RegistrySearcher.search_quay(term, limit)`; conventions as for
`search_docker_hub`. -/
def RegistrySearcher.search_quay (self : RegistrySearcher) (disk : Disk)
    (now : Int) (http : Option JValue) (term : String) (limit : Nat) :
    Except PyExc (List ImageResult) × Disk × Nat :=
  let cache_key := quayKey term limit
  match self.getCached disk now cache_key with
  | .error e => (.error e, disk, 0)
  | .ok cached =>
    if cached.truthy then (kwargsResults cached, disk, 0)
    else
      match http with
      | none => (.ok [], disk, 1)
      | some data =>
        match quayFetchMap data limit with
        | .error e => (.error e, disk, 1)
        | .ok none => (.ok [], disk, 1)
        | .ok (some results) =>
          (.ok results,
           self.setCached disk now cache_key
             (.arr (results.map ImageResult.to_dict)), 1)

/-! ## Remaining definitions used by the theorems -/

/-- First maximum of a list under a relation: `pfmL r l` is the element the
head of any stable `r`-sort of `l` must be (`none` on `[]`). -/
def pfmL {α : Type} (r : α → α → Prop) [DecidableRel r] : List α → Option α
  | [] => none
  | x :: xs => some ((pfmL r xs).elim x (fun m => if r x m then x else m))

/-! ## Codec lemmas -/

theorem digVal_digChar (d : Nat) (h : d < 10) : digVal (digChar d) = d := by
  interval_cases d <;> rfl

theorem isDigit_digChar (d : Nat) (h : d < 10) : (digChar d).isDigit = true := by
  interval_cases d <;> rfl

theorem natDigitsAux_ne_nil (fuel n : Nat) (hf : fuel ≠ 0) (hn : n ≠ 0) :
    natDigitsAux fuel n ≠ [] := by
  cases fuel with
  | zero => exact absurd rfl hf
  | succ f =>
    cases n with
    | zero => exact absurd rfl hn
    | succ m => simp [natDigitsAux]

theorem natDigitsAux_all_digits (fuel : Nat) :
    ∀ n, (natDigitsAux fuel n).all Char.isDigit = true := by
  induction fuel with
  | zero => intro n; rfl
  | succ f ih =>
    intro n
    cases n with
    | zero => rfl
    | succ m =>
      simp only [natDigitsAux, List.all_cons, Bool.and_eq_true]
      exact ⟨isDigit_digChar _ (Nat.mod_lt _ (by omega)), ih _⟩

theorem valLE_natDigitsAux (fuel : Nat) :
    ∀ n, n ≤ fuel → valLE (natDigitsAux fuel n) = n := by
  induction fuel with
  | zero => intro n h; interval_cases n; rfl
  | succ f ih =>
    intro n h
    cases n with
    | zero => rfl
    | succ m =>
      have hdiv : (m + 1) / 10 ≤ f := by omega
      simp only [natDigitsAux, valLE]
      rw [digVal_digChar _ (Nat.mod_lt _ (by omega)), ih _ hdiv]
      omega

theorem foldr_valLE (l : List Char) :
    l.foldr (fun c acc => acc * 10 + digVal c) 0 = valLE l := by
  induction l with
  | nil => rfl
  | cons c cs ih => simp only [List.foldr_cons, valLE, ih]; omega

theorem decodeNat_natToDecimal (n : Nat) :
    decodeNat? (natToDecimal n).toList = some n := by
  by_cases h0 : n = 0
  · subst h0; rfl
  · have hne := natDigitsAux_ne_nil n n h0 h0
    have hall := natDigitsAux_all_digits n n
    unfold natToDecimal
    rw [if_neg h0]
    show decodeNat? (natDigitsAux n n).reverse = some n
    unfold decodeNat?
    rw [if_neg (by simpa [List.isEmpty_iff] using hne)]
    rw [if_pos (by simpa using hall)]
    rw [List.foldl_reverse]
    rw [foldr_valLE]
    rw [valLE_natDigitsAux n n le_rfl]

theorem pyFromIso_pyIsoformat (t : Int) : pyFromIso? (pyIsoformat t) = some t := by
  unfold pyIsoformat
  by_cases ht : t < 0
  · rw [if_pos ht]
    show pyFromIso? ("N" ++ natToDecimal t.natAbs) = some t
    unfold pyFromIso?
    have : ("N" ++ natToDecimal t.natAbs).toList = 'N' :: (natToDecimal t.natAbs).toList := rfl
    rw [this]
    rw [show ∀ ds, (match ('N' :: ds : List Char) with
      | ['1', '9', '7', '0', '-', '0', '1', '-', '0', '1'] => some (0 : Int)
      | 'D' :: ds => (decodeNat? ds).map (fun n => (n : Int))
      | 'N' :: ds => (decodeNat? ds).map (fun n => -(n : Int))
      | _ => none) = (decodeNat? ds).map (fun n => -(n : Int)) from fun _ => rfl]
    rw [decodeNat_natToDecimal]
    show some (-(t.natAbs : Int)) = some t
    have habs : -(t.natAbs : Int) = t := by omega
    rw [habs]
  · rw [if_neg ht]
    show pyFromIso? ("D" ++ natToDecimal t.natAbs) = some t
    unfold pyFromIso?
    have : ("D" ++ natToDecimal t.natAbs).toList = 'D' :: (natToDecimal t.natAbs).toList := rfl
    rw [this]
    rw [show ∀ ds, (match ('D' :: ds : List Char) with
      | ['1', '9', '7', '0', '-', '0', '1', '-', '0', '1'] => some (0 : Int)
      | 'D' :: ds => (decodeNat? ds).map (fun n => (n : Int))
      | 'N' :: ds => (decodeNat? ds).map (fun n => -(n : Int))
      | _ => none) = (decodeNat? ds).map (fun n => (n : Int)) from fun _ => rfl]
    rw [decodeNat_natToDecimal]
    show some ((t.natAbs : Int)) = some t
    have habs : ((t.natAbs : Int)) = t := by omega
    rw [habs]

/-! ## Cache-store lemmas -/

theorem getCached_of_no_file (self : RegistrySearcher) (disk : Disk)
    (now : Int) (key : String) (h : diskLookup disk key = none) :
    self.getCached disk now key = .ok .null := by
  unfold RegistrySearcher.getCached
  cases hb : self.use_cache with
  | false => rfl
  | true => simp [h]

theorem getCached_setCached (self : RegistrySearcher) (disk : Disk)
    (k : String) (v : JValue) (t0 t1 : Int) :
    RegistrySearcher.getCached ⟨true⟩ (self.setCached disk t0 k v) t1 k
      = if t1 - t0 < CACHE_TTL then .ok v else .ok .null := by
  unfold RegistrySearcher.getCached RegistrySearcher.setCached diskWrite diskLookup
  simp only [List.lookup, beq_self_eq_true, if_pos]
  show (match JValue.obj [("cached_at", .str (pyIsoformat t0)), ("data", v)] with
    | JValue.obj fields =>
      match (List.lookup "cached_at" fields).getD (.str "1970-01-01") with
      | .str ts =>
        match pyFromIso? ts with
        | none => Except.error PyExc.valueError
        | some cachedAt =>
          if t1 - cachedAt < CACHE_TTL then
            Except.ok ((List.lookup "data" fields).getD .null)
          else Except.ok JValue.null
      | _ => Except.error PyExc.typeError
    | _ => Except.error PyExc.attributeError)
    = if t1 - t0 < CACHE_TTL then Except.ok v else Except.ok JValue.null
  have h1 : List.lookup "cached_at"
      [("cached_at", JValue.str (pyIsoformat t0)), ("data", v)]
      = some (.str (pyIsoformat t0)) := rfl
  have h2 : List.lookup "data"
      [("cached_at", JValue.str (pyIsoformat t0)), ("data", v)] = some v := rfl
  simp only [h1, h2, Option.getD_some, pyFromIso_pyIsoformat]

/-! ## Stable-sort head lemmas -/

theorem pfmL_mem {α : Type} (r : α → α → Prop) [DecidableRel r] (l : List α)
    (m : α) (h : pfmL r l = some m) : m ∈ l := by
  induction l generalizing m with
  | nil => exact absurd h (by simp [pfmL])
  | cons x xs ih =>
    unfold pfmL at h
    cases hx : pfmL r xs with
    | none =>
      rw [hx] at h
      simp only [Option.elim, Option.some.injEq] at h
      rw [← h]
      exact List.mem_cons_self _ _
    | some m' =>
      rw [hx] at h
      simp only [Option.elim, Option.some.injEq] at h
      rw [← h]
      by_cases hr : r x m'
      · rw [if_pos hr]; exact List.mem_cons_self _ _
      · rw [if_neg hr]; exact List.mem_cons_of_mem _ (ih m' hx)

theorem insertionSort_head_pfmL {α : Type} (r : α → α → Prop) [DecidableRel r]
    (l : List α) : (List.insertionSort r l).head? = pfmL r l := by
  induction l with
  | nil => rfl
  | cons x xs ih =>
    rw [List.insertionSort]
    cases hs : List.insertionSort r xs with
    | nil =>
      rw [hs] at ih
      unfold pfmL
      rw [← ih]
      rfl
    | cons m rest =>
      rw [hs] at ih
      have hm : pfmL r xs = some m := by rw [← ih]; rfl
      unfold pfmL
      rw [hm]
      simp only [Option.elim]
      rw [List.orderedInsert]
      by_cases hr : r x m
      · rw [if_pos hr, if_pos hr]; rfl
      · rw [if_neg hr, if_neg hr]; rfl

theorem pfmL_first_max {α : Type} (r : α → α → Prop) [DecidableRel r]
    (t1 : α) (l2 : List α) (h2 : ∀ u ∈ l2, r t1 u) :
    ∀ l1 : List α, (∀ u ∈ l1, ¬ r u t1) → pfmL r (l1 ++ t1 :: l2) = some t1 := by
  intro l1
  induction l1 with
  | nil =>
    intro _
    show pfmL r (t1 :: l2) = some t1
    unfold pfmL
    cases hx : pfmL r l2 with
    | none => rfl
    | some m =>
      have hm : m ∈ l2 := pfmL_mem r l2 m hx
      simp only [Option.elim]
      rw [if_pos (h2 m hm)]
  | cons x l1' ih =>
    intro h1
    have hrest : pfmL r (l1' ++ t1 :: l2) = some t1 :=
      ih (fun u hu => h1 u (List.mem_cons_of_mem _ hu))
    show pfmL r (x :: (l1' ++ t1 :: l2)) = some t1
    unfold pfmL
    rw [hrest]
    simp only [Option.elim]
    rw [if_neg (h1 x (List.mem_cons_self _ _))]

/-! ## Adapter lemmas -/

theorem ofKwargs_to_dict (r : ImageResult) :
    ImageResult.ofKwargs? r.to_dict = some r := rfl

theorem kwargsList_map_to_dict (rs : List ImageResult) :
    kwargsList (rs.map ImageResult.to_dict) = .ok rs := by
  induction rs with
  | nil => rfl
  | cons r rs ih =>
    show kwargsList (r.to_dict :: rs.map ImageResult.to_dict) = .ok (r :: rs)
    unfold kwargsList
    rw [ofKwargs_to_dict, ih]

theorem dockerMapItems_length (items : List JValue) (rs : List ImageResult)
    (h : dockerMapItems items = .ok rs) : rs.length = items.length := by
  induction items generalizing rs with
  | nil =>
    unfold dockerMapItems at h
    cases h
    rfl
  | cons x xs ih =>
    unfold dockerMapItems at h
    cases hx : dockerMapItem x with
    | error e => rw [hx] at h; cases h
    | ok r =>
      rw [hx] at h
      cases hxs : dockerMapItems xs with
      | error e => rw [hxs] at h; cases h
      | ok rs' =>
        rw [hxs] at h
        cases h
        simp [ih rs' hxs]

theorem quayMapItems_length (items : List JValue) (rs : List ImageResult)
    (h : quayMapItems items = .ok rs) : rs.length = items.length := by
  induction items generalizing rs with
  | nil =>
    unfold quayMapItems at h
    cases h
    rfl
  | cons x xs ih =>
    unfold quayMapItems at h
    cases hx : quayMapItem x with
    | error e => rw [hx] at h; cases h
    | ok r =>
      rw [hx] at h
      cases hxs : quayMapItems xs with
      | error e => rw [hxs] at h; cases h
      | ok rs' =>
        rw [hxs] at h
        cases h
        simp [ih rs' hxs]

theorem search_docker_hub_fetch (self : RegistrySearcher) (disk : Disk)
    (now : Int) (term : String) (limit : Nat) (resp : JValue)
    (results : List ImageResult)
    (hmiss : diskLookup disk (dockerKey term limit) = none)
    (hproc : dockerFetchMap resp = .ok (some results)) :
    self.search_docker_hub disk now (some resp) term limit
      = (.ok results, self.setCached disk now (dockerKey term limit)
          (.arr (results.map ImageResult.to_dict)), 1) := by
  unfold RegistrySearcher.search_docker_hub
  dsimp only
  rw [getCached_of_no_file self disk now _ hmiss]
  simp only [JValue.truthy, Bool.false_eq_true, if_false, hproc]

theorem search_quay_fetch (self : RegistrySearcher) (disk : Disk)
    (now : Int) (term : String) (limit : Nat) (resp : JValue)
    (results : List ImageResult)
    (hmiss : diskLookup disk (quayKey term limit) = none)
    (hproc : quayFetchMap resp limit = .ok (some results)) :
    self.search_quay disk now (some resp) term limit
      = (.ok results, self.setCached disk now (quayKey term limit)
          (.arr (results.map ImageResult.to_dict)), 1) := by
  unfold RegistrySearcher.search_quay
  dsimp only
  rw [getCached_of_no_file self disk now _ hmiss]
  simp only [JValue.truthy, Bool.false_eq_true, if_false, hproc]

theorem search_docker_hub_hit (self : RegistrySearcher) (disk : Disk)
    (now : Int) (http : Option JValue) (term : String) (limit : Nat)
    (results : List ImageResult) (hne : results ≠ [])
    (hcache : self.getCached disk now (dockerKey term limit)
      = .ok (.arr (results.map ImageResult.to_dict))) :
    self.search_docker_hub disk now http term limit = (.ok results, disk, 0) := by
  unfold RegistrySearcher.search_docker_hub
  dsimp only
  rw [hcache]
  have htr : (JValue.arr (results.map ImageResult.to_dict)).truthy = true := by
    simp [JValue.truthy, hne]
  simp only [htr, if_true]
  unfold kwargsResults pyIter
  dsimp only
  rw [kwargsList_map_to_dict]

theorem search_quay_hit (self : RegistrySearcher) (disk : Disk)
    (now : Int) (http : Option JValue) (term : String) (limit : Nat)
    (results : List ImageResult) (hne : results ≠ [])
    (hcache : self.getCached disk now (quayKey term limit)
      = .ok (.arr (results.map ImageResult.to_dict))) :
    self.search_quay disk now http term limit = (.ok results, disk, 0) := by
  unfold RegistrySearcher.search_quay
  dsimp only
  rw [hcache]
  have htr : (JValue.arr (results.map ImageResult.to_dict)).truthy = true := by
    simp [JValue.truthy, hne]
  simp only [htr, if_true]
  unfold kwargsResults pyIter
  dsimp only
  rw [kwargsList_map_to_dict]

theorem quayFetchMap_length_le (data : JValue) (limit : Nat)
    (rs : List ImageResult) (h : quayFetchMap data limit = .ok (some rs)) :
    rs.length ≤ limit := by
  unfold quayFetchMap at h
  cases htr : data.truthy with
  | false => rw [htr] at h; cases h
  | true =>
    rw [htr] at h
    simp only [Bool.not_true, Bool.false_eq_true, if_false] at h
    cases hni : pyNotIn "results" data with
    | error e => rw [hni] at h; cases h
    | ok b =>
      rw [hni] at h
      cases b with
      | true => cases h
      | false =>
        cases hgi : pyGetItem data "results" with
        | error e => rw [hgi] at h; cases h
        | ok rv =>
          rw [hgi] at h
          dsimp only at h
          cases rv with
          | str s =>
            rw [show pySliceTake (.str s) limit
                = .ok (.str (String.mk (s.toList.take limit))) from rfl] at h
            dsimp only at h
            rw [show pyIter (.str (String.mk (s.toList.take limit)))
                = .ok ((s.toList.take limit).map
                    (fun c => .str (String.mk [c]))) from rfl] at h
            dsimp only at h
            cases hmi : quayMapItems ((s.toList.take limit).map
                (fun c => JValue.str (String.mk [c]))) with
            | error e => rw [hmi] at h; cases h
            | ok rs' =>
              rw [hmi] at h
              cases h
              have hlen := quayMapItems_length _ _ hmi
              rw [hlen, List.length_map]
              exact le_trans (List.length_take_le _ _) le_rfl
          | arr xs =>
            rw [show pySliceTake (.arr xs) limit
                = .ok (.arr (xs.take limit)) from rfl] at h
            dsimp only at h
            rw [show pyIter (.arr (xs.take limit))
                = .ok (xs.take limit) from rfl] at h
            dsimp only at h
            cases hmi : quayMapItems (xs.take limit) with
            | error e => rw [hmi] at h; cases h
            | ok rs' =>
              rw [hmi] at h
              cases h
              have hlen := quayMapItems_length _ _ hmi
              rw [hlen]
              exact List.length_take_le _ _
          | null => cases h
          | bool b2 => cases h
          | num n => cases h
          | obj fs => cases h

theorem dockerFetchMap_results (items : List JValue) (results : List ImageResult)
    (h : dockerMapItems items = .ok results) :
    dockerFetchMap (.obj [("results", .arr items)]) = .ok (some results) := by
  unfold dockerFetchMap
  simp [JValue.truthy, pyNotIn, pyGetItem, pyIter, List.lookup, h]

/-! ## Claim theorems -/

/-- C1 (code bug): contrary to the spec's "never raises", `_get_cached`
raises an uncaught `ValueError` when the stored `cached_at` string does not
parse: `datetime.fromisoformat` failures are outside the caught
`(json.JSONDecodeError, KeyError)` set.  Concretely, a cache file holding
the JSON document with cached_at "not-a-date" makes the read raise instead
of degrading to a miss. -/
theorem getCached_raises_on_malformed_timestamp :
    RegistrySearcher.getCached ⟨true⟩
      [("k", .json (.obj [("cached_at", .str "not-a-date"), ("data", .num 1)]))]
      0 "k" = .error .valueError := rfl

/-- C2 (counterexample): with caching disabled (`use_cache=False`), a write
is not a no-op — `_set_cached` never consults `use_cache`, so after writing
to an empty cache directory the file exists on disk. -/
theorem setCached_writes_when_cache_disabled :
    (diskLookup (RegistrySearcher.setCached ⟨false⟩ [] 0 "k" (.str "v")) "k").isSome
      = true := rfl

/-- C2 (amended): with caching disabled, every read reports a miss, but a
write still stores the entry on disk exactly as it would with caching
enabled (only subsequent reads ignore it). -/
theorem cache_disabled_read_misses_write_persists (disk : Disk) (now : Int)
    (key : String) (v : JValue) :
    RegistrySearcher.getCached ⟨false⟩ disk now key = .ok .null ∧
    RegistrySearcher.setCached ⟨false⟩ disk now key v
      = RegistrySearcher.setCached ⟨true⟩ disk now key v ∧
    diskLookup (RegistrySearcher.setCached ⟨false⟩ disk now key v) key
      = some (.json (.obj [("cached_at", .str (pyIsoformat now)), ("data", v)])) := by
  refine ⟨rfl, rfl, ?_⟩
  simp [RegistrySearcher.setCached, diskWrite, diskLookup, List.lookup]

/-- C3 (counterexample): at age exactly `TTL` (3600 s) the read is a miss,
not a hit — the code compares with strict `<`, while the claim promises the
payload whenever age ≤ TTL. -/
theorem cache_roundtrip_ttl_boundary :
    RegistrySearcher.getCached ⟨true⟩
      (RegistrySearcher.setCached ⟨true⟩ [] 0 "k" (.str "v")) 3600 "k"
      = .ok .null
    ∧ JValue.null ≠ JValue.str "v" :=
  ⟨rfl, fun h => JValue.noConfusion h⟩

/-- C3 (amended): with caching enabled, `_set_cached(K, V)` followed by
`_get_cached(K)` returns `V` unchanged whenever the entry's age is strictly
less than the TTL (3600 s), and reports a miss whenever the age is ≥ TTL
(in particular at age exactly TTL). -/
theorem cache_roundtrip_strict_ttl (disk : Disk) (key : String) (v : JValue)
    (t0 t1 : Int) :
    RegistrySearcher.getCached ⟨true⟩
      (RegistrySearcher.setCached ⟨true⟩ disk t0 key v) t1 key
      = if t1 - t0 < 3600 then .ok v else .ok .null :=
  getCached_setCached ⟨true⟩ disk key v t0 t1

/-- C4 (counterexample): two identical Docker Hub searches can issue two
network calls.  When the backend reports an empty result list, the first
search caches `[]`, but the cache-hit test `if cached:` is falsy on an
empty list, so the second identical search fetches again. -/
theorem search_memoization_cex :
    (let resp : JValue := .obj [("results", .arr [])]
     let r1 := RegistrySearcher.search_docker_hub ⟨true⟩ [] 0 (some resp) "x" 1
     let r2 := RegistrySearcher.search_docker_hub ⟨true⟩ r1.2.1 0 (some resp) "x" 1
     r1.2.2 + r2.2.2 = 2 ∧ ¬(r1.2.2 + r2.2.2 ≤ 1)) := by decide

/-- C4 (amended): with caching enabled and within the TTL, two identical
searches on the same adapter issue one network call in total *provided the
first search's fetch succeeds with a non-empty (truthy) result list*: the
first fetches and caches, the second is served from cache with no network
call and no disk change.  (When the first fetch fails or maps to an empty
list, the second search fetches again — see the counterexample.)  Stated
for both adapters. -/
theorem search_memoized_after_nonempty
    (disk : Disk) (t1 t2 : Int) (term : String) (limit : Nat)
    (respD respQ : JValue) (resultsD resultsQ : List ImageResult)
    (http2 http3 : Option JValue)
    (httl : t2 - t1 < CACHE_TTL)
    (hmissD : diskLookup disk (dockerKey term limit) = none)
    (hprocD : dockerFetchMap respD = .ok (some resultsD))
    (hneD : resultsD ≠ [])
    (hmissQ : diskLookup disk (quayKey term limit) = none)
    (hprocQ : quayFetchMap respQ limit = .ok (some resultsQ))
    (hneQ : resultsQ ≠ []) :
    (RegistrySearcher.search_docker_hub ⟨true⟩ disk t1 (some respD) term limit
        = (.ok resultsD,
           RegistrySearcher.setCached ⟨true⟩ disk t1 (dockerKey term limit)
             (.arr (resultsD.map ImageResult.to_dict)), 1)
     ∧ RegistrySearcher.search_docker_hub ⟨true⟩
         (RegistrySearcher.setCached ⟨true⟩ disk t1 (dockerKey term limit)
           (.arr (resultsD.map ImageResult.to_dict))) t2 http2 term limit
        = (.ok resultsD,
           RegistrySearcher.setCached ⟨true⟩ disk t1 (dockerKey term limit)
             (.arr (resultsD.map ImageResult.to_dict)), 0))
    ∧ (RegistrySearcher.search_quay ⟨true⟩ disk t1 (some respQ) term limit
        = (.ok resultsQ,
           RegistrySearcher.setCached ⟨true⟩ disk t1 (quayKey term limit)
             (.arr (resultsQ.map ImageResult.to_dict)), 1)
     ∧ RegistrySearcher.search_quay ⟨true⟩
         (RegistrySearcher.setCached ⟨true⟩ disk t1 (quayKey term limit)
           (.arr (resultsQ.map ImageResult.to_dict))) t2 http3 term limit
        = (.ok resultsQ,
           RegistrySearcher.setCached ⟨true⟩ disk t1 (quayKey term limit)
             (.arr (resultsQ.map ImageResult.to_dict)), 0)) := by
  refine ⟨⟨?_, ?_⟩, ?_, ?_⟩
  · exact search_docker_hub_fetch _ _ _ _ _ _ _ hmissD hprocD
  · apply search_docker_hub_hit _ _ _ _ _ _ _ hneD
    rw [getCached_setCached, if_pos httl]
  · exact search_quay_fetch _ _ _ _ _ _ _ hmissQ hprocQ
  · apply search_quay_hit _ _ _ _ _ _ _ hneQ
    rw [getCached_setCached, if_pos httl]

/-- C4 witness: a concrete nonempty first search on each adapter, followed
by an identical search one second later, served from cache with zero
network calls. -/
theorem search_memoized_after_nonempty_witness :
    (RegistrySearcher.search_docker_hub ⟨true⟩ [] 0
        (some (.obj [("results", .arr [.obj []])])) "x" 5
        = (.ok [{ name := .str "", registry := .str "docker.io",
                  description := .str "", stars := .num 0, pulls := .num 0,
                  official := .bool false, latest_tag := .str "latest" }],
           RegistrySearcher.setCached ⟨true⟩ [] 0 (dockerKey "x" 5)
             (.arr ([{ name := .str "", registry := .str "docker.io",
                       description := .str "", stars := .num 0, pulls := .num 0,
                       official := .bool false,
                       latest_tag := .str "latest" }].map ImageResult.to_dict)), 1)
     ∧ RegistrySearcher.search_docker_hub ⟨true⟩
         (RegistrySearcher.setCached ⟨true⟩ [] 0 (dockerKey "x" 5)
           (.arr ([{ name := .str "", registry := .str "docker.io",
                     description := .str "", stars := .num 0, pulls := .num 0,
                     official := .bool false,
                     latest_tag := .str "latest" }].map ImageResult.to_dict)))
         1 none "x" 5
        = (.ok [{ name := .str "", registry := .str "docker.io",
                  description := .str "", stars := .num 0, pulls := .num 0,
                  official := .bool false, latest_tag := .str "latest" }],
           RegistrySearcher.setCached ⟨true⟩ [] 0 (dockerKey "x" 5)
             (.arr ([{ name := .str "", registry := .str "docker.io",
                       description := .str "", stars := .num 0, pulls := .num 0,
                       official := .bool false,
                       latest_tag := .str "latest" }].map ImageResult.to_dict)), 0))
    ∧ (RegistrySearcher.search_quay ⟨true⟩ [] 0
        (some (.obj [("results", .arr [.obj []])])) "x" 5
        = (.ok [{ name := .str "quay.io//", registry := .str "quay.io",
                  description := .str "", stars := .num 0, pulls := .num 0,
                  official := .bool false, latest_tag := .str "latest" }],
           RegistrySearcher.setCached ⟨true⟩ [] 0 (quayKey "x" 5)
             (.arr ([{ name := .str "quay.io//", registry := .str "quay.io",
                       description := .str "", stars := .num 0, pulls := .num 0,
                       official := .bool false,
                       latest_tag := .str "latest" }].map ImageResult.to_dict)), 1)
     ∧ RegistrySearcher.search_quay ⟨true⟩
         (RegistrySearcher.setCached ⟨true⟩ [] 0 (quayKey "x" 5)
           (.arr ([{ name := .str "quay.io//", registry := .str "quay.io",
                     description := .str "", stars := .num 0, pulls := .num 0,
                     official := .bool false,
                     latest_tag := .str "latest" }].map ImageResult.to_dict)))
         1 none "x" 5
        = (.ok [{ name := .str "quay.io//", registry := .str "quay.io",
                  description := .str "", stars := .num 0, pulls := .num 0,
                  official := .bool false, latest_tag := .str "latest" }],
           RegistrySearcher.setCached ⟨true⟩ [] 0 (quayKey "x" 5)
             (.arr ([{ name := .str "quay.io//", registry := .str "quay.io",
                       description := .str "", stars := .num 0, pulls := .num 0,
                       official := .bool false,
                       latest_tag := .str "latest" }].map ImageResult.to_dict)), 0)) :=
  search_memoized_after_nonempty [] 0 1 "x" 5
    (.obj [("results", .arr [.obj []])]) (.obj [("results", .arr [.obj []])])
    [{ name := .str "", registry := .str "docker.io", description := .str "",
       stars := .num 0, pulls := .num 0, official := .bool false,
       latest_tag := .str "latest" }]
    [{ name := .str "quay.io//", registry := .str "quay.io",
       description := .str "", stars := .num 0, pulls := .num 0,
       official := .bool false, latest_tag := .str "latest" }]
    none none (by decide) rfl rfl (List.cons_ne_nil _ _) rfl rfl
    (List.cons_ne_nil _ _)

/-- C5: the tag-ranking of `get_best_tag` on concrete fetched lists:
`["1.2","1.10","1.9","2.0"] ↦ "2.0"`, `["1.2"] ↦ "1.2"`, `[] ↦ "latest"`. -/
theorem best_tag_ranking_examples :
    bestTagFromTags ["1.2", "1.10", "1.9", "2.0"] = "2.0" ∧
    bestTagFromTags ["1.2"] = "1.2" ∧
    bestTagFromTags [] = "latest" := by decide

/-- C6: the exclusion filter removes a tag only when its whole string,
lowered, equals one of the thirteen fixed words — membership in the
survivor list is exactly "not excluded and release-shaped"; in particular
"3.0.0-rc1" is not excluded, matches the shape pattern, and remains a
ranking candidate. -/
theorem exclusion_whole_string_only (tags : List String) (t : String)
    (ht : t ∈ tags) :
    (t ∈ valid_tags tags
      ↔ (exclude.contains (pyLower t) = false ∧ semverMatch t = true)) ∧
    exclude.contains (pyLower "3.0.0-rc1") = false ∧
    semverMatch "3.0.0-rc1" = true ∧
    "3.0.0-rc1" ∈ valid_tags ["3.0.0-rc1"] := by
  refine ⟨?_, by decide, by decide, by decide⟩
  unfold valid_tags
  rw [List.mem_filter]
  simp [ht, Bool.and_eq_true, Bool.not_eq_true']

/-- C6 witness: the characterisation instantiated at the tag "3.0.0-rc1"
itself. -/
theorem exclusion_whole_string_only_witness :
    (("3.0.0-rc1" ∈ valid_tags ["3.0.0-rc1"])
      ↔ (exclude.contains (pyLower "3.0.0-rc1") = false
         ∧ semverMatch "3.0.0-rc1" = true)) ∧
    exclude.contains (pyLower "3.0.0-rc1") = false ∧
    semverMatch "3.0.0-rc1" = true ∧
    "3.0.0-rc1" ∈ valid_tags ["3.0.0-rc1"] :=
  exclusion_whole_string_only ["3.0.0-rc1"] "3.0.0-rc1" (List.mem_cons_self _ _)

/-- C7: whenever some fetched tag matches the release shape and is not
excluded, the tag returned by the ranking is not a member of the exclusion
set. -/
theorem best_tag_not_excluded (tags : List String)
    (h : ∃ t, t ∈ tags ∧ semverMatch t = true
         ∧ exclude.contains (pyLower t) = false) :
    exclude.contains (pyLower (bestTagFromTags tags)) = false := by
  obtain ⟨t, htags, hsem, hexc⟩ := h
  have htv : t ∈ valid_tags tags := by
    unfold valid_tags
    refine List.mem_filter.mpr ⟨htags, ?_⟩
    rw [hexc, hsem]
    rfl
  have htags_ne : tags.isEmpty = false := by
    cases tags with
    | nil => cases htags
    | cons a l => rfl
  have hv_ne : (valid_tags tags).isEmpty = false := by
    cases hvt : valid_tags tags with
    | nil => rw [hvt] at htv; cases htv
    | cons a l => rfl
  unfold bestTagFromTags
  dsimp only
  rw [htags_ne, hv_ne]
  simp only [Bool.false_eq_true, if_false]
  cases hs : List.insertionSort tagOrder (valid_tags tags) with
  | nil =>
    exfalso
    have hperm := List.perm_insertionSort tagOrder (valid_tags tags)
    rw [hs] at hperm
    have h0 : valid_tags tags = [] := hperm.symm.eq_nil
    rw [h0] at hv_ne
    cases hv_ne
  | cons b l =>
    have hb : b ∈ valid_tags tags := by
      have hmem : b ∈ List.insertionSort tagOrder (valid_tags tags) := by
        rw [hs]; exact List.mem_cons_self _ _
      exact (List.mem_insertionSort tagOrder).mp hmem
    show exclude.contains (pyLower b) = false
    unfold valid_tags at hb
    obtain ⟨-, hp⟩ := List.mem_filter.mp hb
    simp only [Bool.and_eq_true, Bool.not_eq_true'] at hp
    exact hp.1

/-- C7 witness: the fetched list `["1.2"]` contains a shape-matching,
non-excluded tag, and the returned best tag is not in the exclusion set. -/
theorem best_tag_not_excluded_witness :
    exclude.contains (pyLower (bestTagFromTags ["1.2"])) = false :=
  best_tag_not_excluded ["1.2"]
    ⟨"1.2", List.mem_cons_self _ _, by decide, by decide⟩

/-- C8: on a non-empty fetched list in which no tag survives both filters,
the ranking returns the first tag of the original, unfiltered list. -/
theorem best_tag_fallback_first (t : String) (ts : List String)
    (h : valid_tags (t :: ts) = []) : bestTagFromTags (t :: ts) = t := by
  unfold bestTagFromTags
  dsimp only
  rw [h]
  rfl

/-- C8 witness: `["foo", "bar"]` has no release-shaped survivor and the
best tag is the first fetched tag "foo". -/
theorem best_tag_fallback_first_witness :
    valid_tags ["foo", "bar"] = [] ∧ bestTagFromTags ["foo", "bar"] = "foo" :=
  ⟨by decide, best_tag_fallback_first "foo" ["bar"] (by decide)⟩

/-- C9 (counterexample): `search_docker_hub` does not truncate client-side.
With `limit = 1` and a backend response containing two records (a server
ignoring `page_size`), it returns two results — more than `limit`. -/
theorem docker_hub_no_truncation_cex :
    (match (RegistrySearcher.search_docker_hub ⟨true⟩ [] 0
        (some (.obj [("results", .arr [.obj [], .obj []])])) "x" 1).1 with
     | .ok l => l.length
     | .error _ => 0) = 2 ∧ ¬(2 ≤ 1) := ⟨rfl, by decide⟩

/-- C9 (amended): on a cache miss, `search_quay` returns at most `limit`
results for every backend response (client-side truncation before
mapping), while `search_docker_hub` returns one result per record of the
response — relying on the server's `page_size`, with no client-side cap. -/
theorem result_cap_amended (self : RegistrySearcher) (disk : Disk) (now : Int)
    (term : String) (limit : Nat) (http : Option JValue)
    (l : List ImageResult) (d : Disk) (n : Nat)
    (items : List JValue) (resultsD : List ImageResult)
    (hmissQ : diskLookup disk (quayKey term limit) = none)
    (hrunQ : self.search_quay disk now http term limit = (.ok l, d, n))
    (hmissD : diskLookup disk (dockerKey term limit) = none)
    (hmapD : dockerMapItems items = .ok resultsD) :
    l.length ≤ limit ∧
    self.search_docker_hub disk now (some (.obj [("results", .arr items)]))
        term limit
      = (.ok resultsD, self.setCached disk now (dockerKey term limit)
          (.arr (resultsD.map ImageResult.to_dict)), 1) ∧
    resultsD.length = items.length := by
  refine ⟨?_, ?_, dockerMapItems_length _ _ hmapD⟩
  · unfold RegistrySearcher.search_quay at hrunQ
    dsimp only at hrunQ
    rw [getCached_of_no_file self disk now _ hmissQ] at hrunQ
    dsimp only [JValue.truthy] at hrunQ
    simp only [Bool.false_eq_true, if_false] at hrunQ
    cases http with
    | none =>
      dsimp only at hrunQ
      cases hrunQ
      simp
    | some data =>
      dsimp only at hrunQ
      cases hq : quayFetchMap data limit with
      | error e => rw [hq] at hrunQ; cases hrunQ
      | ok o =>
        cases o with
        | none =>
          rw [hq] at hrunQ
          dsimp only at hrunQ
          cases hrunQ
          simp
        | some rs =>
          rw [hq] at hrunQ
          dsimp only at hrunQ
          cases hrunQ
          exact quayFetchMap_length_le data limit _ hq
  · exact search_docker_hub_fetch self disk now term limit _ _ hmissD
      (dockerFetchMap_results items resultsD hmapD)

/-- C9 witness: with `limit = 1`, a two-record response leaves Quay's
result capped at one entry while Docker Hub returns both records. -/
theorem result_cap_amended_witness :
    ([{ name := .str "quay.io//", registry := .str "quay.io",
        description := .str "", stars := .num 0, pulls := .num 0,
        official := .bool false,
        latest_tag := .str "latest" }] : List ImageResult).length ≤ 1 ∧
    RegistrySearcher.search_docker_hub ⟨true⟩ [] 0
        (some (.obj [("results", .arr [.obj [], .obj []])])) "x" 1
      = (.ok [{ name := .str "", registry := .str "docker.io",
                description := .str "", stars := .num 0, pulls := .num 0,
                official := .bool false, latest_tag := .str "latest" },
              { name := .str "", registry := .str "docker.io",
                description := .str "", stars := .num 0, pulls := .num 0,
                official := .bool false, latest_tag := .str "latest" }],
         RegistrySearcher.setCached ⟨true⟩ [] 0 (dockerKey "x" 1)
           (.arr ([{ name := .str "", registry := .str "docker.io",
                     description := .str "", stars := .num 0, pulls := .num 0,
                     official := .bool false, latest_tag := .str "latest" },
                   { name := .str "", registry := .str "docker.io",
                     description := .str "", stars := .num 0, pulls := .num 0,
                     official := .bool false,
                     latest_tag := .str "latest" }].map ImageResult.to_dict)), 1) ∧
    ([{ name := .str "", registry := .str "docker.io", description := .str "",
        stars := .num 0, pulls := .num 0, official := .bool false,
        latest_tag := .str "latest" },
      { name := .str "", registry := .str "docker.io", description := .str "",
        stars := .num 0, pulls := .num 0, official := .bool false,
        latest_tag := .str "latest" }] : List ImageResult).length
      = ([JValue.obj [], JValue.obj []] : List JValue).length :=
  result_cap_amended ⟨true⟩ [] 0 "x" 1
    (some (.obj [("results", .arr [.obj [], .obj []])]))
    [{ name := .str "quay.io//", registry := .str "quay.io",
       description := .str "", stars := .num 0, pulls := .num 0,
       official := .bool false, latest_tag := .str "latest" }]
    (RegistrySearcher.setCached ⟨true⟩ [] 0 (quayKey "x" 1)
      (.arr (([{ name := .str "quay.io//", registry := .str "quay.io",
                 description := .str "", stars := .num 0, pulls := .num 0,
                 official := .bool false,
                 latest_tag := .str "latest" }] : List ImageResult).map
        ImageResult.to_dict)))
    1 [.obj [], .obj []]
    [{ name := .str "", registry := .str "docker.io", description := .str "",
       stars := .num 0, pulls := .num 0, official := .bool false,
       latest_tag := .str "latest" },
     { name := .str "", registry := .str "docker.io", description := .str "",
       stars := .num 0, pulls := .num 0, official := .bool false,
       latest_tag := .str "latest" }]
    rfl rfl rfl rfl

/-- C10 (counterexample): read literally ("whenever two or more surviving
tags have equal keys, the returned tag is the earliest of *them*"), the
claim fails when the equal-key group is not the maximal one: in
`["3.0", "1.2", "1.2-alpha"]` the tags "1.2" and "1.2-alpha" are surviving
tags with equal keys, yet the result is "3.0", not a member of that
group. -/
theorem best_tag_stable_tie_cex :
    version_key "1.2" = version_key "1.2-alpha" ∧
    "1.2" ∈ valid_tags ["3.0", "1.2", "1.2-alpha"] ∧
    "1.2-alpha" ∈ valid_tags ["3.0", "1.2", "1.2-alpha"] ∧
    bestTagFromTags ["3.0", "1.2", "1.2-alpha"] = "3.0" ∧
    ("3.0" : String) ≠ "1.2" ∧ ("3.0" : String) ≠ "1.2-alpha" := by decide

/-- C10 (amended): when two or more surviving tags share the *maximal*
4-component version key, the returned tag is the one among them occurring
earliest in the fetched order — the descending sort is stable on equal
keys. -/
theorem best_tag_stable_tie (tags l1 l2 : List String) (t1 : String)
    (hdecomp : valid_tags tags = l1 ++ t1 :: l2)
    (hmax : ∀ u ∈ valid_tags tags,
      keyGe (version_key t1) (version_key u) = true)
    (hstrict : ∀ u ∈ l1, keyGe (version_key u) (version_key t1) = false)
    (htie : ∃ t2, t2 ∈ l2 ∧ version_key t2 = version_key t1) :
    bestTagFromTags tags = t1 := by
  have ht1v : t1 ∈ valid_tags tags := by
    rw [hdecomp]
    exact List.mem_append_right _ (List.mem_cons_self _ _)
  have ht1tags : t1 ∈ tags := by
    have h' := ht1v
    unfold valid_tags at h'
    exact List.mem_of_mem_filter h'
  have htags_ne : tags.isEmpty = false := by
    cases tags with
    | nil => cases ht1tags
    | cons a l => rfl
  have hv_ne : (valid_tags tags).isEmpty = false := by
    rw [hdecomp]
    cases l1 <;> rfl
  unfold bestTagFromTags
  dsimp only
  rw [htags_ne, hv_ne]
  simp only [Bool.false_eq_true, if_false]
  have hpf : pfmL tagOrder (l1 ++ t1 :: l2) = some t1 := by
    apply pfmL_first_max
    · intro u hu
      exact hmax u (by
        rw [hdecomp]
        exact List.mem_append_right _ (List.mem_cons_of_mem _ hu))
    · intro u hu
      have hne := hstrict u hu
      intro hcon
      unfold tagOrder at hcon
      rw [hne] at hcon
      exact Bool.noConfusion hcon
  have hhead := insertionSort_head_pfmL tagOrder (l1 ++ t1 :: l2)
  rw [hpf] at hhead
  rw [hdecomp]
  cases hs : List.insertionSort tagOrder (l1 ++ t1 :: l2) with
  | nil => rw [hs] at hhead; cases hhead
  | cons b l =>
    rw [hs] at hhead
    injection hhead

/-- C10 witness: in `["1.2", "1.2-alpha"]` both survivors share the maximal
key `(1,2,0,0)` and the earlier one, "1.2", is returned. -/
theorem best_tag_stable_tie_witness :
    bestTagFromTags ["1.2", "1.2-alpha"] = "1.2" :=
  best_tag_stable_tie ["1.2", "1.2-alpha"] [] ["1.2-alpha"] "1.2"
    (by decide) (by decide) (by decide) ⟨"1.2-alpha", by decide, by decide⟩
